import Mathlib

/-!
Verification of the `Pitch` class of the dRowAudio module
(`src/dRowAudio/audio/dRowAudio_Pitch.h`).

Embedding conventions:

* JUCE `String` values are modelled as `List Char`; Lean `Char` is a Unicode
  scalar value, so the one-character accidental symbols U+266F and U+266D are
  single list elements, exactly as `juce_wchar` treats them.
* `double` values flowing through the frequency/MIDI conversions are modelled
  as exact real numbers (`ℝ`).
* C++ `int` arithmetic is modelled as `ℤ`; the C++ `%` and `/` operators
  truncate toward zero, hence `Int.tmod` and `Int.tdiv`.
* `String::toLowerCase` lowercases basic-latin letters; `Char.toLower` from
  core Lean implements exactly that mapping.
* `(int)` casts of a `double` truncate toward zero, modelled by `truncToInt`.
-/

/-- Modelled from the spec: the conversion collaborator `midiToFrequency`
lives in `dRowAudio_AudioUtility.h`, which is outside `src/`.  Spec section
4.4 gives it as `hz = 440 · 2^((m − 69) / 12)`. -/
noncomputable def midiToFrequency (m : ℝ) : ℝ :=
  440 * (2 : ℝ) ^ ((m - 69) / 12)

/-- Modelled from the spec: the conversion collaborator `frequencyToMidi`
lives in `dRowAudio_AudioUtility.h`, which is outside `src/`.  Spec section
4.4 gives it as `m = 69 + 12 · log2(hz / 440)`. -/
noncomputable def frequencyToMidi (hz : ℝ) : ℝ :=
  69 + 12 * Real.logb 2 (hz / 440)

/-- C-style cast of a floating-point value to `int`: truncation toward zero. -/
noncomputable def truncToInt (x : ℝ) : ℤ :=
  if 0 ≤ x then ⌊x⌋ else ⌈x⌉

/-- The `Pitch` class: a single `double frequency` member. -/
structure Pitch where
  frequency : ℝ

namespace Pitch

/-- `getSharpSymbol`: the unicode sharp symbol U+266F. -/
def getSharpSymbol : Char := '♯'

/-- `getFlatSymbol`: the unicode flat symbol U+266D. -/
def getFlatSymbol : Char := '♭'

/-- `Pitch::fromFrequency`: stores the frequency directly. -/
def fromFrequency (frequencyHz : ℝ) : Pitch :=
  ⟨frequencyHz⟩

/-- `Pitch::fromMidiNote`: stores `midiToFrequency (midiNote)`. -/
noncomputable def fromMidiNote (midiNote : ℝ) : Pitch :=
  ⟨midiToFrequency midiNote⟩

/-- `Pitch::getValidPitchClassLetters`: the string `"abcdefg#b"` followed by
the sharp and flat symbols. -/
def getValidPitchClassLetters : List Char :=
  "abcdefg#b".toList ++ [getSharpSymbol, getFlatSymbol]

/-- `Pitch::getPitchClass`.  Starts from `-1`; a first character (of the
lowercased name) selects the base class, a second character adjusts it by a
semitone, and — only when a second character exists — the C++ `%= 12`
(truncated remainder) is applied. -/
def getPitchClass (pitchClassName : List Char) : ℤ :=
  let numChars := pitchClassName.length
  let pitchClass : ℤ :=
    if numChars > 0 then
      let base := (pitchClassName.map Char.toLower).getD 0 (Char.ofNat 0)
      if base = 'c' then 0
      else if base = 'd' then 2
      else if base = 'e' then 4
      else if base = 'f' then 5
      else if base = 'g' then 7
      else if base = 'a' then 9
      else if base = 'b' then 11
      else -1
    else -1
  if numChars > 1 then
    let sharpOrFlat := pitchClassName.getD 1 (Char.ofNat 0)
    let pc1 := if sharpOrFlat = '#' then pitchClass + 1
      else if sharpOrFlat = 'b' then pitchClass - 1
      else pitchClass
    let pc2 := if sharpOrFlat = getSharpSymbol then pc1 + 1
      else if sharpOrFlat = getFlatSymbol then pc1 - 1
      else pc1
    Int.tmod pc2 12
  else pitchClass

/-- `String::getIntValue` restricted to the digit-only strings produced by
`retainCharacters ("0123456789")`: the non-negative decimal value. -/
def getIntValue (s : List Char) : ℤ :=
  Int.ofNat (s.foldl (fun n c => n * 10 + (c.toNat - 48)) 0)

/-- The local `octaveName` of `Pitch::fromNoteName`:
`noteName.retainCharacters ("0123456789")`. -/
def octaveName (noteName : List Char) : List Char :=
  noteName.filter (fun c => decide (c ∈ "0123456789".toList))

/-- The local `pitchClassName` of `Pitch::fromNoteName`:
`noteName.toLowerCase().retainCharacters (getValidPitchClassLetters())`. -/
def pitchClassName (noteName : List Char) : List Char :=
  (noteName.map Char.toLower).filter (fun c => decide (c ∈ getValidPitchClassLetters))

/-- `Pitch::fromNoteName`. -/
noncomputable def fromNoteName (noteName : List Char) : Pitch :=
  let octave : ℤ := getIntValue (octaveName noteName)
  let pitchClass : ℤ := getPitchClass (pitchClassName noteName)
  let midiNote : ℤ := octave * 12 + pitchClass
  if pitchClass > 0 then fromMidiNote (midiNote : ℝ) else Pitch.mk 0

/-- `Pitch::getFrequencyHz`. -/
def getFrequencyHz (p : Pitch) : ℝ :=
  p.frequency

/-- `Pitch::getMidiNote`. -/
noncomputable def getMidiNote (p : Pitch) : ℝ :=
  frequencyToMidi p.frequency

/-- `Pitch::getNoteName` (private): pitch-class number to letter. -/
def getNoteName (pitchClass : ℤ) : List Char :=
  if pitchClass = 0 then "C".toList
  else if pitchClass = 1 then "C#".toList
  else if pitchClass = 2 then "D".toList
  else if pitchClass = 3 then "D#".toList
  else if pitchClass = 4 then "E".toList
  else if pitchClass = 5 then "F".toList
  else if pitchClass = 6 then "F#".toList
  else if pitchClass = 7 then "G".toList
  else if pitchClass = 8 then "G#".toList
  else if pitchClass = 9 then "A".toList
  else if pitchClass = 10 then "A#".toList
  else if pitchClass = 11 then "B".toList
  else []

/-- `Pitch::getMidiNoteName`.  The C++ `(int)` cast truncates toward zero and
`%` / `/` on `int` are the truncated remainder and quotient. -/
noncomputable def getMidiNoteName (p : Pitch) : List Char :=
  let midiNote : ℤ := truncToInt p.getMidiNote
  let pitchClass : ℤ := Int.tmod midiNote 12
  let octave : ℤ := Int.tdiv midiNote 12 - 1
  getNoteName pitchClass ++ (toString octave).toList

end Pitch

/-- Relation ``InsertJunk s t``: `t` is obtained from `s` by inserting, at
arbitrary positions, characters that are neither ASCII digits nor (after
lowercasing) members of `getValidPitchClassLetters` — i.e. characters that
both retain steps of `fromNoteName` discard. -/
inductive InsertJunk : List Char → List Char → Prop where
  | nil : InsertJunk [] []
  | keep (c : Char) {s t : List Char} (h : InsertJunk s t) :
      InsertJunk (c :: s) (c :: t)
  | junk (c : Char) {s t : List Char} (hd : c ∉ "0123456789".toList)
      (hp : c.toLower ∉ Pitch.getValidPitchClassLetters) (h : InsertJunk s t) :
      InsertJunk s (c :: t)

/-! ### Helper lemmas on the frequency/MIDI conversions -/

lemma midiToFrequency_pos (m : ℝ) : 0 < midiToFrequency m :=
  mul_pos (by norm_num) (Real.rpow_pos_of_pos (by norm_num) _)

lemma frequencyToMidi_midiToFrequency (m : ℝ) :
    frequencyToMidi (midiToFrequency m) = m := by
  unfold frequencyToMidi midiToFrequency
  have h : (440 : ℝ) * (2 : ℝ) ^ ((m - 69) / 12) / 440 = (2 : ℝ) ^ ((m - 69) / 12) := by
    ring
  rw [h, Real.logb_rpow (by norm_num) (by norm_num)]
  ring

lemma midiToFrequency_offset (k : ℤ) :
    midiToFrequency (((69 + 12 * k : ℤ) : ℝ)) = 440 * (2 : ℝ) ^ k := by
  unfold midiToFrequency
  have h : (((69 + 12 * k : ℤ) : ℝ) - 69) / 12 = ((k : ℤ) : ℝ) := by
    push_cast
    ring
  rw [h, Real.rpow_intCast]

lemma getMidiNote_fromMidiNote (m : ℝ) :
    (Pitch.fromMidiNote m).getMidiNote = m :=
  frequencyToMidi_midiToFrequency m

lemma truncToInt_intCast (n : ℤ) : truncToInt ((n : ℤ) : ℝ) = n := by
  unfold truncToInt
  split
  · exact Int.floor_intCast n
  · exact Int.ceil_intCast n

lemma fromNoteName_eq (s : List Char) :
    Pitch.fromNoteName s =
      if Pitch.getPitchClass (Pitch.pitchClassName s) > 0 then
        Pitch.fromMidiNote
          ((Pitch.getIntValue (Pitch.octaveName s) * 12
            + Pitch.getPitchClass (Pitch.pitchClassName s) : ℤ) : ℝ)
      else Pitch.mk 0 :=
  rfl

lemma fromNoteName_pos_eval (s : List Char) (o pc : ℤ)
    (ho : Pitch.getIntValue (Pitch.octaveName s) = o)
    (hpc : Pitch.getPitchClass (Pitch.pitchClassName s) = pc)
    (h : pc > 0) :
    Pitch.fromNoteName s = Pitch.fromMidiNote ((o * 12 + pc : ℤ) : ℝ) := by
  rw [fromNoteName_eq, ho, hpc, if_pos h]

lemma fromNoteName_sentinel_eval (s : List Char) (pc : ℤ)
    (hpc : Pitch.getPitchClass (Pitch.pitchClassName s) = pc)
    (h : ¬ pc > 0) :
    Pitch.fromNoteName s = Pitch.mk 0 := by
  rw [fromNoteName_eq, hpc, if_neg h]

lemma getMidiNoteName_eval (p : Pitch) (m : ℤ) (h : truncToInt p.getMidiNote = m) :
    p.getMidiNoteName =
      Pitch.getNoteName (Int.tmod m 12) ++ (toString (Int.tdiv m 12 - 1)).toList := by
  unfold Pitch.getMidiNoteName
  rw [h]

/-! ### Helper lemmas on `Char.toLower` -/

lemma toLower_eq (c : Char) :
    c.toLower = if c.toNat ≥ 65 ∧ c.toNat ≤ 90 then Char.ofNat (c.toNat + 32) else c :=
  rfl

lemma toLower_toLower (c : Char) : c.toLower.toLower = c.toLower := by
  by_cases h : c.toNat ≥ 65 ∧ c.toNat ≤ 90
  · rw [toLower_eq c, if_pos h]
    obtain ⟨h1, h2⟩ := h
    obtain ⟨t, ht⟩ : ∃ t, c.toNat = t := ⟨_, rfl⟩
    rw [ht] at h1 h2 ⊢
    interval_cases t <;> decide
  · rw [toLower_eq c, if_neg h, toLower_eq c, if_neg h]

lemma toLower_eq_self_of_mem_digits (c : Char) (h : c ∈ "0123456789".toList) :
    c.toLower = c := by
  fin_cases h <;> decide

lemma mem_digits_of_toLower_mem_digits (c : Char)
    (h : c.toLower ∈ "0123456789".toList) : c ∈ "0123456789".toList := by
  by_cases hc : c.toNat ≥ 65 ∧ c.toNat ≤ 90
  · exfalso
    rw [toLower_eq c, if_pos hc] at h
    obtain ⟨h1, h2⟩ := hc
    obtain ⟨t, ht⟩ : ∃ t, c.toNat = t := ⟨_, rfl⟩
    rw [ht] at h1 h2
    rw [ht] at h
    interval_cases t <;> exact absurd h (by decide)
  · rw [toLower_eq c, if_neg hc] at h
    exact h

lemma octaveName_map_toLower (s : List Char) :
    Pitch.octaveName (s.map Char.toLower) = Pitch.octaveName s := by
  unfold Pitch.octaveName
  induction s with
  | nil => rfl
  | cons c s ih =>
    simp only [List.map_cons, List.filter_cons]
    by_cases h : c ∈ "0123456789".toList
    · rw [toLower_eq_self_of_mem_digits c h, ih]
    · have h2 : c.toLower ∉ "0123456789".toList :=
        fun hh => h (mem_digits_of_toLower_mem_digits c hh)
      simp only [decide_eq_false h, decide_eq_false h2, Bool.false_eq_true,
        if_false, ih]

lemma pitchClassName_map_toLower (s : List Char) :
    Pitch.pitchClassName (s.map Char.toLower) = Pitch.pitchClassName s := by
  unfold Pitch.pitchClassName
  rw [List.map_map]
  have h : Char.toLower ∘ Char.toLower = Char.toLower :=
    funext fun c => toLower_toLower c
  rw [h]

lemma getPitchClass_cons_cons (c₁ c₂ : Char) (rest : List Char) :
    Pitch.getPitchClass (c₁ :: c₂ :: rest) =
      Int.tmod
        (let pc0 : ℤ :=
          if c₁.toLower = 'c' then 0
          else if c₁.toLower = 'd' then 2
          else if c₁.toLower = 'e' then 4
          else if c₁.toLower = 'f' then 5
          else if c₁.toLower = 'g' then 7
          else if c₁.toLower = 'a' then 9
          else if c₁.toLower = 'b' then 11
          else -1
        let pc1 :=
          if c₂ = '#' then pc0 + 1
          else if c₂ = 'b' then pc0 - 1
          else pc0
        if c₂ = Pitch.getSharpSymbol then pc1 + 1
        else if c₂ = Pitch.getFlatSymbol then pc1 - 1
        else pc1) 12 := by
  have h0 : (c₁ :: c₂ :: rest).length > 0 := by
    simp only [List.length_cons]
    omega
  have h1 : (c₁ :: c₂ :: rest).length > 1 := by
    simp only [List.length_cons]
    omega
  unfold Pitch.getPitchClass
  simp only [if_pos h0, if_pos h1, List.map_cons, List.getD_cons_zero, List.getD_cons_succ]

lemma insertJunk_octaveName {s t : List Char} (h : InsertJunk s t) :
    Pitch.octaveName t = Pitch.octaveName s := by
  induction h with
  | nil => rfl
  | keep c h ih =>
    unfold Pitch.octaveName at ih ⊢
    simp only [List.filter_cons, ih]
  | junk c hd hp h ih =>
    unfold Pitch.octaveName at ih ⊢
    simp only [List.filter_cons, decide_eq_false hd, Bool.false_eq_true, if_false, ih]

lemma insertJunk_pitchClassName {s t : List Char} (h : InsertJunk s t) :
    Pitch.pitchClassName t = Pitch.pitchClassName s := by
  induction h with
  | nil => rfl
  | keep c h ih =>
    unfold Pitch.pitchClassName at ih ⊢
    simp only [List.map_cons, List.filter_cons, ih]
  | junk c hd hp h ih =>
    unfold Pitch.pitchClassName at ih ⊢
    simp only [List.map_cons, List.filter_cons, decide_eq_false hp,
      Bool.false_eq_true, if_false, ih]

lemma fromNoteName_not_a_note_eval :
    (Pitch.fromNoteName ("not a note".toList)).getFrequencyHz = 13.75 := by
  rw [fromNoteName_pos_eval ("not a note".toList) 0 9 (by decide) (by decide) (by decide)]
  show midiToFrequency ((0 * 12 + 9 : ℤ) : ℝ) = 13.75
  have h9 : (0 * 12 + 9 : ℤ) = 69 + 12 * (-5) := by decide
  rw [h9, midiToFrequency_offset]
  norm_num

/-! ### Claims -/

/-- Claim C1, evaluated on the code at the claimed inputs: the source's
`fromNoteName` computes `octave * 12 + pitchClass` with no octave offset,
while `getMidiNoteName` uses `midi / 12 - 1`; hence `fromNoteName "A4"`
yields MIDI 57 (220 Hz, not 440) and `"A#3"`, `"Bb3"`, `"A♯3"` yield MIDI 46
(not 58). -/
theorem C1_code_eval :
    (Pitch.fromNoteName ("A4".toList)).getFrequencyHz = 220 ∧
    (Pitch.fromNoteName ("A#3".toList)).getMidiNote = 46 ∧
    (Pitch.fromNoteName ("Bb3".toList)).getMidiNote = 46 ∧
    (Pitch.fromNoteName ("A♯3".toList)).getMidiNote = 46 := by
  refine ⟨?_, ?_, ?_, ?_⟩
  · rw [fromNoteName_pos_eval ("A4".toList) 4 9 (by decide) (by decide) (by decide)]
    show midiToFrequency ((4 * 12 + 9 : ℤ) : ℝ) = 220
    have h : (4 * 12 + 9 : ℤ) = 69 + 12 * (-1) := by decide
    rw [h, midiToFrequency_offset]
    norm_num
  · rw [fromNoteName_pos_eval ("A#3".toList) 3 10 (by decide) (by decide) (by decide),
      getMidiNote_fromMidiNote]
    norm_num
  · rw [fromNoteName_pos_eval ("Bb3".toList) 3 10 (by decide) (by decide) (by decide),
      getMidiNote_fromMidiNote]
    norm_num
  · rw [fromNoteName_pos_eval ("A♯3".toList) 3 10 (by decide) (by decide) (by decide),
      getMidiNote_fromMidiNote]
    norm_num

/-- Claim C2, evaluated on the code at the failing input `m = 69`:
`fromMidiNote 69` formats as `"A4"`, but parsing `"A4"` back yields MIDI 57,
not 69 — the name round-trip fails because parser and formatter disagree by
one octave. -/
theorem C2_code_eval :
    (Pitch.fromMidiNote (69 : ℝ)).getMidiNoteName = "A4".toList ∧
    (Pitch.fromNoteName ((Pitch.fromMidiNote (69 : ℝ)).getMidiNoteName)).getMidiNote = 57 := by
  have htr : truncToInt ((Pitch.fromMidiNote (69 : ℝ)).getMidiNote) = 69 := by
    rw [getMidiNote_fromMidiNote]
    have h : (69 : ℝ) = ((69 : ℤ) : ℝ) := by norm_num
    rw [h, truncToInt_intCast]
  have hname : (Pitch.fromMidiNote (69 : ℝ)).getMidiNoteName = "A4".toList := by
    rw [getMidiNoteName_eval _ 69 htr]
    decide
  refine ⟨hname, ?_⟩
  rw [hname, fromNoteName_pos_eval ("A4".toList) 4 9 (by decide) (by decide) (by decide),
    getMidiNote_fromMidiNote]
  norm_num

/-- Claim C3: the sentinel rule — whenever the parsed pitch class is `≤ 0`
(parse failure or a C natural such as `"C4"`) `fromNoteName` returns the
Pitch with frequency exactly 0, and whenever it is `> 0` it returns
`fromMidiNote (octave * 12 + pitchClass)`. -/
theorem C3_sentinel_rule :
    (∀ s : List Char,
      (Pitch.getPitchClass (Pitch.pitchClassName s) ≤ 0 →
        Pitch.fromNoteName s = Pitch.mk 0) ∧
      (0 < Pitch.getPitchClass (Pitch.pitchClassName s) →
        Pitch.fromNoteName s =
          Pitch.fromMidiNote
            ((Pitch.getIntValue (Pitch.octaveName s) * 12
              + Pitch.getPitchClass (Pitch.pitchClassName s) : ℤ) : ℝ))) ∧
    (Pitch.fromNoteName ("C4".toList)).getFrequencyHz = 0 := by
  constructor
  · intro s
    constructor
    · intro h
      exact fromNoteName_sentinel_eval s _ rfl (by omega)
    · intro h
      exact fromNoteName_pos_eval s _ _ rfl rfl h
  · rw [fromNoteName_sentinel_eval ("C4".toList) 0 (by decide) (by decide)]
    rfl

/-- Witness for C3: `"C4"` parses to pitch class 0 and hits the sentinel
branch; `"B3"` parses to pitch class 11 and hits the `fromMidiNote` branch. -/
theorem C3_witness :
    (Pitch.getPitchClass (Pitch.pitchClassName ("C4".toList)) ≤ 0 ∧
      Pitch.fromNoteName ("C4".toList) = Pitch.mk 0) ∧
    (0 < Pitch.getPitchClass (Pitch.pitchClassName ("B3".toList)) ∧
      Pitch.fromNoteName ("B3".toList) =
        Pitch.fromMidiNote
          ((Pitch.getIntValue (Pitch.octaveName ("B3".toList)) * 12
            + Pitch.getPitchClass (Pitch.pitchClassName ("B3".toList)) : ℤ) : ℝ)) :=
  ⟨⟨by decide, (C3_sentinel_rule.1 ("C4".toList)).1 (by decide)⟩,
   ⟨by decide, (C3_sentinel_rule.1 ("B3".toList)).2 (by decide)⟩⟩

/-- Counterexample to claim C4: `"not a note"` is not mapped to the sentinel:
the retain step keeps the letters `a` and `e`, so the string parses as note A,
octave 0, frequency 13.75 Hz ≠ 0. -/
theorem C4_counterexample :
    (Pitch.fromNoteName ("not a note".toList)).getFrequencyHz ≠ 0 := by
  rw [fromNoteName_not_a_note_eval]
  norm_num

/-- Claim C4 as amended: `"not a note"` parses as note A octave 0 (MIDI 9,
13.75 Hz); an input with no retained pitch-class character, such as `"zz"`,
does map to the sentinel Pitch with frequency exactly 0. -/
theorem C4_amended :
    (Pitch.fromNoteName ("not a note".toList)).getFrequencyHz = 13.75 ∧
    (Pitch.fromNoteName ("zz".toList)).getFrequencyHz = 0 := by
  refine ⟨fromNoteName_not_a_note_eval, ?_⟩
  rw [fromNoteName_sentinel_eval ("zz".toList) (-1) (by decide) (by decide)]
  rfl

/-- Counterexample to claim C5: `"Cb"` (base letter C, flat accidental) does
not wrap to pitch class 11 — the C++ `%` truncates toward zero, so the
adjusted value `-1` stays `-1`, outside `[0, 11]`. -/
theorem C5_counterexample :
    Pitch.getPitchClass ("Cb".toList) = -1 ∧
    ¬ (0 ≤ Pitch.getPitchClass ("Cb".toList) ∧
        Pitch.getPitchClass ("Cb".toList) ≤ 11) := by
  decide

/-- Claim C5 as amended: for a retained pitch-class string starting with a
base letter followed by an accidental the parser's result lies in `[-1, 11]`
(not `[0, 11]`): `"B#"` wraps to 0, but `"Cb"` yields `-1`, which the entity
then treats as a parse failure. -/
theorem C5_amended :
    (∀ (c₁ c₂ : Char) (rest : List Char),
      c₁.toLower ∈ ['a', 'b', 'c', 'd', 'e', 'f', 'g'] →
      c₂ ∈ ['#', 'b', Pitch.getSharpSymbol, Pitch.getFlatSymbol] →
      -1 ≤ Pitch.getPitchClass (c₁ :: c₂ :: rest) ∧
        Pitch.getPitchClass (c₁ :: c₂ :: rest) ≤ 11) ∧
    Pitch.getPitchClass ("B#".toList) = 0 ∧
    Pitch.getPitchClass ("Cb".toList) = -1 := by
  refine ⟨?_, by decide, by decide⟩
  intro c₁ c₂ rest h₁ h₂
  rw [getPitchClass_cons_cons]
  simp only [List.mem_cons, List.not_mem_nil, or_false] at h₁ h₂
  rcases h₂ with h₂ | h₂ | h₂ | h₂ <;> subst h₂ <;>
    rcases h₁ with h₁ | h₁ | h₁ | h₁ | h₁ | h₁ | h₁ <;> simp only [h₁] <;> decide

/-- Witness for C5: the instance `c₁ = 'c'`, `c₂ = 'b'` satisfies both
hypotheses and the bound. -/
theorem C5_witness :
    Char.toLower 'c' ∈ ['a', 'b', 'c', 'd', 'e', 'f', 'g'] ∧
    'b' ∈ ['#', 'b', Pitch.getSharpSymbol, Pitch.getFlatSymbol] ∧
    (-1 ≤ Pitch.getPitchClass ['c', 'b'] ∧
      Pitch.getPitchClass ['c', 'b'] ≤ 11) :=
  ⟨by decide, by decide, C5_amended.1 'c' 'b' [] (by decide) (by decide)⟩

/-- Claim C6: the frequency round-trip — `fromFrequency` stores the given
value unchanged (no validation, any sign allowed) and `getFrequencyHz`
returns exactly the stored value. -/
theorem C6_frequency_roundtrip :
    ∀ hz : ℝ, (Pitch.fromFrequency hz).getFrequencyHz = hz :=
  fun _ => rfl

/-- Claim C7: parser tolerance — inserting characters that are neither ASCII
digits nor (after lowercasing) retained pitch-class characters anywhere in a
note name leaves the resulting Pitch unchanged. -/
theorem C7_parser_tolerance :
    ∀ (s t : List Char), InsertJunk s t →
      Pitch.fromNoteName t = Pitch.fromNoteName s := by
  intro s t h
  rw [fromNoteName_eq, fromNoteName_eq, insertJunk_octaveName h,
    insertJunk_pitchClassName h]

/-- Witness for C7: inserting a space and an exclamation mark into `"A4"`
yields the same Pitch. -/
theorem C7_witness :
    Pitch.fromNoteName ['A', ' ', '!', '4'] = Pitch.fromNoteName ['A', '4'] :=
  C7_parser_tolerance ['A', '4'] ['A', ' ', '!', '4']
    (.keep 'A' (.junk ' ' (by decide) (by decide)
      (.junk '!' (by decide) (by decide) (.keep '4' .nil))))

/-- Counterexample to claim C8: for the Pitch of MIDI note `-1` the truncated
MIDI integer is `-1`, the C++ `%` gives pitch class `-1` (not in `[0, 11]`),
`getNoteName` returns the empty string, and the full name is just `"-1"`,
which does not begin with a table letter. -/
theorem C8_counterexample :
    Int.tmod (truncToInt ((Pitch.fromMidiNote (-1 : ℝ)).getMidiNote)) 12 = -1 ∧
    (Pitch.fromMidiNote (-1 : ℝ)).getMidiNoteName = "-1".toList := by
  have hm : truncToInt ((Pitch.fromMidiNote (-1 : ℝ)).getMidiNote) = -1 := by
    rw [getMidiNote_fromMidiNote]
    have h : (-1 : ℝ) = ((-1 : ℤ) : ℝ) := by norm_num
    rw [h, truncToInt_intCast]
  refine ⟨by rw [hm]; decide, ?_⟩
  rw [getMidiNoteName_eval _ (-1) hm]
  decide

/-- Claim C8 as amended: for every Pitch whose truncated MIDI note is
non-negative the pitch class `midiInt % 12` lies in `[0, 11]` and the
returned name begins with a letter of the table; for a negative truncated
MIDI note the C++ `%` can be negative and the letter part is empty. -/
theorem C8_amended :
    ∀ p : Pitch, 0 ≤ truncToInt p.getMidiNote →
      (0 ≤ Int.tmod (truncToInt p.getMidiNote) 12 ∧
        Int.tmod (truncToInt p.getMidiNote) 12 ≤ 11) ∧
      ∃ c ∈ ['C', 'D', 'E', 'F', 'G', 'A', 'B'],
        p.getMidiNoteName.head? = some c := by
  intro p h
  have h0 : 0 ≤ Int.tmod (truncToInt p.getMidiNote) 12 :=
    Int.tmod_nonneg 12 h
  have h1 : Int.tmod (truncToInt p.getMidiNote) 12 < 12 :=
    Int.tmod_lt_of_pos _ (by omega)
  refine ⟨⟨h0, by omega⟩, ?_⟩
  rw [getMidiNoteName_eval p _ rfl]
  have hd : Int.tmod (truncToInt p.getMidiNote) 12 = 0 ∨
      Int.tmod (truncToInt p.getMidiNote) 12 = 1 ∨
      Int.tmod (truncToInt p.getMidiNote) 12 = 2 ∨
      Int.tmod (truncToInt p.getMidiNote) 12 = 3 ∨
      Int.tmod (truncToInt p.getMidiNote) 12 = 4 ∨
      Int.tmod (truncToInt p.getMidiNote) 12 = 5 ∨
      Int.tmod (truncToInt p.getMidiNote) 12 = 6 ∨
      Int.tmod (truncToInt p.getMidiNote) 12 = 7 ∨
      Int.tmod (truncToInt p.getMidiNote) 12 = 8 ∨
      Int.tmod (truncToInt p.getMidiNote) 12 = 9 ∨
      Int.tmod (truncToInt p.getMidiNote) 12 = 10 ∨
      Int.tmod (truncToInt p.getMidiNote) 12 = 11 := by omega
  rcases hd with h' | h' | h' | h' | h' | h' | h' | h' | h' | h' | h' | h'
  · exact ⟨'C', by decide, by rw [h']; rfl⟩
  · exact ⟨'C', by decide, by rw [h']; rfl⟩
  · exact ⟨'D', by decide, by rw [h']; rfl⟩
  · exact ⟨'D', by decide, by rw [h']; rfl⟩
  · exact ⟨'E', by decide, by rw [h']; rfl⟩
  · exact ⟨'F', by decide, by rw [h']; rfl⟩
  · exact ⟨'F', by decide, by rw [h']; rfl⟩
  · exact ⟨'G', by decide, by rw [h']; rfl⟩
  · exact ⟨'G', by decide, by rw [h']; rfl⟩
  · exact ⟨'A', by decide, by rw [h']; rfl⟩
  · exact ⟨'A', by decide, by rw [h']; rfl⟩
  · exact ⟨'B', by decide, by rw [h']; rfl⟩

/-- Witness for C8: the Pitch of MIDI note 60 has truncated MIDI note 60 ≥ 0,
pitch class 0 and a name starting with `C`. -/
theorem C8_witness :
    0 ≤ truncToInt ((Pitch.fromMidiNote (60 : ℝ)).getMidiNote) ∧
    ((0 ≤ Int.tmod (truncToInt ((Pitch.fromMidiNote (60 : ℝ)).getMidiNote)) 12 ∧
        Int.tmod (truncToInt ((Pitch.fromMidiNote (60 : ℝ)).getMidiNote)) 12 ≤ 11) ∧
      ∃ c ∈ ['C', 'D', 'E', 'F', 'G', 'A', 'B'],
        (Pitch.fromMidiNote (60 : ℝ)).getMidiNoteName.head? = some c) := by
  have h60 : truncToInt ((Pitch.fromMidiNote (60 : ℝ)).getMidiNote) = 60 := by
    rw [getMidiNote_fromMidiNote]
    have h : (60 : ℝ) = ((60 : ℤ) : ℝ) := by norm_num
    rw [h, truncToInt_intCast]
  have hpos : 0 ≤ truncToInt ((Pitch.fromMidiNote (60 : ℝ)).getMidiNote) := by
    rw [h60]
    decide
  exact ⟨hpos, C8_amended _ hpos⟩

/-- Claim C9: under exact real arithmetic the frequency produced by
`fromNoteName` is either exactly 0 or strictly positive, and it is 0 exactly
when the `pitchClass > 0` check rejected the parse. -/
theorem C9_zero_iff_rejected :
    ∀ s : List Char,
      ((Pitch.fromNoteName s).getFrequencyHz = 0 ∨
        0 < (Pitch.fromNoteName s).getFrequencyHz) ∧
      ((Pitch.fromNoteName s).getFrequencyHz = 0 ↔
        Pitch.getPitchClass (Pitch.pitchClassName s) ≤ 0) := by
  intro s
  by_cases h : Pitch.getPitchClass (Pitch.pitchClassName s) > 0
  · rw [fromNoteName_pos_eval s _ _ rfl rfl h]
    have hp : (0 : ℝ) <
        (Pitch.fromMidiNote
          ((Pitch.getIntValue (Pitch.octaveName s) * 12
            + Pitch.getPitchClass (Pitch.pitchClassName s) : ℤ) : ℝ)).getFrequencyHz :=
      midiToFrequency_pos _
    refine ⟨Or.inr hp, ?_⟩
    constructor
    · intro h0
      exact absurd h0 (ne_of_gt hp)
    · intro hle
      omega
  · rw [fromNoteName_sentinel_eval s _ rfl h]
    exact ⟨Or.inl rfl, ⟨fun _ => by omega, fun _ => rfl⟩⟩

/-- Claim C10: `fromNoteName` is fully case-insensitive — it agrees on any
string and its lowercased form; in particular an uppercase `B` in accidental
position acts as a flat, so `"AB3"` and `"Ab3"` give the same Pitch. -/
theorem C10_case_insensitive :
    (∀ s : List Char,
      Pitch.fromNoteName (s.map Char.toLower) = Pitch.fromNoteName s) ∧
    Pitch.fromNoteName ("AB3".toList) = Pitch.fromNoteName ("Ab3".toList) := by
  have hmain : ∀ s : List Char,
      Pitch.fromNoteName (s.map Char.toLower) = Pitch.fromNoteName s := by
    intro s
    rw [fromNoteName_eq, fromNoteName_eq, octaveName_map_toLower,
      pitchClassName_map_toLower]
  refine ⟨hmain, ?_⟩
  have h1 := hmain ("AB3".toList)
  have h2 := hmain ("Ab3".toList)
  have e1 : ("AB3".toList).map Char.toLower = "ab3".toList := by decide
  have e2 : ("Ab3".toList).map Char.toLower = "ab3".toList := by decide
  rw [e1] at h1
  rw [e2] at h2
  rw [← h1, ← h2]
